import Mathlib

/-!
Shallow embedding of the r2pipe client library (`src/r2pipe.rs`).

The library drives an external tool over one of four transports
(spawned process, inherited file descriptors, TCP, HTTP).  Transport
I/O is modelled by passing the raw byte stream that the transport
would deliver as an explicit argument (a `List Nat` of byte values),
and each `cmd` model returns both the bytes written to the transport
and the computed result, so that framing claims can be stated about
both directions.
-/

namespace R2pipe

/-- Modelled from the spec: the library's error kind enumeration
(`crate::Error` lives outside the provided source file; §7 of the spec
lists its variants).  `ChannelClosed` stands for the std mpsc
send/receive failures on a closed channel. -/
inductive Error where
  | NoSession
  | ArgumentMismatch
  | EmptyResponse
  | DecodeError
  | ParseError
  | ChannelClosed
deriving DecidableEq, Repr

/-- Alias for `crate::Result`. -/
abbrev Result (α : Type) := Except Error α

instance {ε α : Type} [DecidableEq ε] [DecidableEq α] : DecidableEq (Except ε α) :=
  fun a b =>
    match a, b with
    | .ok x, .ok y =>
      if h : x = y then isTrue (by rw [h]) else isFalse (by intro hc; cases hc; exact h rfl)
    | .error x, .error y =>
      if h : x = y then isTrue (by rw [h]) else isFalse (by intro hc; cases hc; exact h rfl)
    | .ok _, .error _ => isFalse (by intro hc; cases hc)
    | .error _, .ok _ => isFalse (by intro hc; cases hc)

/-! ## UTF-8

Rust `String`s cross the pipe as UTF-8 bytes (`cmd.as_bytes()`,
`str::from_utf8`).  We model byte sequences as `List Nat` and give an
executable encoder and (strict) decoder. -/

/-- UTF-8 encoding of one Unicode scalar value `c.toNat`. -/
def utf8EncodeChar (c : Char) : List Nat :=
  let n := c.toNat
  if n < 128 then [n]
  else if n < 2048 then [192 + n / 64, 128 + n % 64]
  else if n < 65536 then [224 + n / 4096, 128 + n / 64 % 64, 128 + n % 64]
  else [240 + n / 262144, 128 + n / 4096 % 64, 128 + n / 64 % 64, 128 + n % 64]

/-- The UTF-8 bytes of a string (`str::as_bytes`). -/
def utf8Encode (s : String) : List Nat :=
  s.data.flatMap utf8EncodeChar

/-- Is `b` a UTF-8 continuation byte (`10xxxxxx`)? -/
def contByte (b : Nat) : Bool :=
  128 ≤ b && b < 192

/-- Strict UTF-8 decoder (`str::from_utf8`), as a byte-at-a-time state
machine: `pending = some (k, acc, lo)` means `k` continuation bytes
are still expected for a scalar accumulated so far in `acc` whose
final value must be at least `lo` (ruling out overlong encodings);
surrogates and values above `0x10FFFF` are rejected when a scalar is
completed, and stray, missing or early-terminated sequences are
rejected. -/
def utf8DecodeAux : Option (Nat × Nat × Nat) → List Nat → Option (List Char)
  | none, [] => some []
  | some _, [] => none
  | none, b :: rest =>
    if b < 128 then (utf8DecodeAux none rest).map (fun cs => Char.ofNat b :: cs)
    else if b < 192 then none
    else if b < 224 then utf8DecodeAux (some (1, b - 192, 128)) rest
    else if b < 240 then utf8DecodeAux (some (2, b - 224, 2048)) rest
    else if b < 248 then utf8DecodeAux (some (3, b - 240, 65536)) rest
    else none
  | some (k, acc, lo), b :: rest =>
    if contByte b then
      match k with
      | 0 => none
      | 1 =>
        let n := acc * 64 + (b - 128)
        if lo ≤ n ∧ (n < 55296 ∨ 57343 < n) ∧ n < 1114112 then
          (utf8DecodeAux none rest).map (fun cs => Char.ofNat n :: cs)
        else none
      | k2 + 2 => utf8DecodeAux (some (k2 + 1, acc * 64 + (b - 128), lo)) rest
    else none

/-- Decode a byte sequence to the character list it encodes, if it is
valid UTF-8. -/
def utf8DecodeChars (l : List Nat) : Option (List Char) :=
  utf8DecodeAux none l

/-- Decode a byte sequence to a string, if it is valid UTF-8. -/
def utf8Decode (l : List Nat) : Option String :=
  (utf8DecodeChars l).map fun cs => ⟨cs⟩

/-! ## Shared response processing -/

/-- Model of `BufRead::read_until(delim)`: the bytes consumed from the stream —
everything up to and including the first occurrence of `delim`, or the
whole stream if the delimiter never occurs before EOF. -/
def readUntil (delim : Nat) : List Nat → List Nat
  | [] => []
  | b :: rest => if b = delim then [b] else b :: readUntil delim rest

/-- Model of `process_result` (src/r2pipe.rs:86-93): reject a zero-length
response, otherwise drop the final byte and UTF-8-decode the rest. -/
def process_result (res : List Nat) : Result String :=
  if res.length = 0 then .error .EmptyResponse
  else
    match utf8Decode res.dropLast with
    | some s => .ok s
    | none => .error .DecodeError

/-! ## Transports

Each `cmd` model takes the command and the raw byte stream the
transport would deliver, and returns the bytes written together with
the result computed from the stream. -/

/-- Model of `R2PipeSpawn::cmd` (src/r2pipe.rs:304-311): write the command plus
a trailing newline, `read_until` the NUL delimiter, post-process. -/
def R2PipeSpawn.cmd (cmd : String) (stream : List Nat) : List Nat × Result String :=
  (utf8Encode (cmd ++ "\n"), process_result (readUntil 0 stream))

/-- Model of `R2PipeLang::cmd` (src/r2pipe.rs:327-332): write the command bytes
as-is, `read_until` the NUL delimiter, post-process. -/
def R2PipeLang.cmd (cmd : String) (stream : List Nat) : List Nat × Result String :=
  (utf8Encode cmd, process_result (readUntil 0 stream))

/-- Model of `R2PipeTcp::cmd` (src/r2pipe.rs:365-372): write the raw command
bytes, `read_to_end`, push a synthetic NUL, post-process. -/
def R2PipeTcp.cmd (cmd : String) (stream : List Nat) : List Nat × Result String :=
  (utf8Encode cmd, process_result (stream ++ [0]))

/-- Model of `R2PipeHttp::cmd` (src/r2pipe.rs:349-354): the request URL is
`format!("http://{}/cmd/{}", host, cmd)`; the whole response body is
UTF-8-decoded.  Returns (URL, result). -/
def R2PipeHttp.cmd (host cmd : String) (body : List Nat) : String × Result String :=
  ("http://" ++ host ++ "/cmd/" ++ cmd,
   match utf8Decode body with
   | some s => .ok s
   | none => .error .DecodeError)

/-! ## Structured (JSON) variants

`serde_json::from_str` is an external collaborator; it is abstracted
as a `parse` function valued in an arbitrary value type `V`, returning
`none` on malformed input (the spec notes it rejects the empty
string). -/

/-- Model of `R2PipeSpawn::cmdj` (src/r2pipe.rs:313-319): run `cmd`; an empty
result is `Error::EmptyResponse`; otherwise parse. -/
def R2PipeSpawn.cmdj {V : Type} (parse : String → Option V) (cmd : String)
    (stream : List Nat) : Result V :=
  match (R2PipeSpawn.cmd cmd stream).2 with
  | .error e => .error e
  | .ok s =>
    if s = "" then .error .EmptyResponse
    else
      match parse s with
      | some v => .ok v
      | none => .error .ParseError

/-- Model of `R2PipeLang::cmdj` (src/r2pipe.rs:334-338): run `cmd`, then parse
(no emptiness check). -/
def R2PipeLang.cmdj {V : Type} (parse : String → Option V) (cmd : String)
    (stream : List Nat) : Result V :=
  match (R2PipeLang.cmd cmd stream).2 with
  | .error e => .error e
  | .ok s =>
    match parse s with
    | some v => .ok v
    | none => .error .ParseError

/-- Model of `R2PipeTcp::cmdj` (src/r2pipe.rs:374-377). -/
def R2PipeTcp.cmdj {V : Type} (parse : String → Option V) (cmd : String)
    (stream : List Nat) : Result V :=
  match (R2PipeTcp.cmd cmd stream).2 with
  | .error e => .error e
  | .ok s =>
    match parse s with
    | some v => .ok v
    | none => .error .ParseError

/-- Model of `R2PipeHttp::cmdj` (src/r2pipe.rs:356-359). -/
def R2PipeHttp.cmdj {V : Type} (parse : String → Option V) (host cmd : String)
    (body : List Nat) : Result V :=
  match (R2PipeHttp.cmd host cmd body).2 with
  | .error e => .error e
  | .ok s =>
    match parse s with
    | some v => .ok v
    | none => .error .ParseError

/-! ## Session discovery and construction -/

/-- Modelled from the spec/std: the process environment, a partial map
from variable names to values (`std::env::var`). -/
abbrev Env := String → Option String

/-- Modelled from the spec: Rust's `str::parse::<i32>` — an optional
sign followed by one or more ASCII digits, the value required to fit
in `i32`. -/
def parseI32 (s : String) : Option Int :=
  let p : Int × List Char :=
    match s.data with
    | '+' :: rest => (1, rest)
    | '-' :: rest => (-1, rest)
    | l => (1, l)
  if p.2.isEmpty then none
  else if p.2.all (fun c => c.isDigit) then
    let n : Nat := p.2.foldl (fun a c => a * 10 + (c.toNat - 48)) 0
    let v : Int := p.1 * n
    if -(2 ^ 31) ≤ v ∧ v < 2 ^ 31 then some v else none
  else none

/-- Model of `atoi` (src/r2pipe.rs:75-77): `k.parse::<i32>().unwrap_or(-1)`. -/
def atoi (k : String) : Int :=
  (parseI32 k).getD (-1)

/-- Model of `getenv` (src/r2pipe.rs:79-84): read the variable and `atoi` it,
`-1` if absent. -/
def getenv (env : Env) (k : String) : Int :=
  match env k with
  | some val => atoi val
  | none => -1

/-- Model of `R2PipeSpawnOptions` (src/r2pipe.rs:59-63). -/
structure R2PipeSpawnOptions where
  exepath : String
  args : List String
deriving DecidableEq, Repr

/-- The `R2Pipe` enum (src/r2pipe.rs:66-73).  A `Lang` value records
the two duplicated descriptor numbers; a `Pipe` value records the
spawn parameters (the process launch itself is external I/O). -/
inductive R2PipeVariant where
  | Pipe (exepath : String) (args : List String) (name : String)
  | Lang (fdIn fdOut : Int)
  | Tcp (addr : String)
  | Http (host : String)
deriving DecidableEq, Repr

/-- Model of `R2Pipe::in_session` (src/r2pipe.rs:167-174). -/
def R2Pipe.in_session (env : Env) : Option (Int × Int) :=
  let f_in := getenv env "R2PIPE_IN"
  let f_out := getenv env "R2PIPE_OUT"
  if f_in < 0 ∨ f_out < 0 then none
  else some (f_in, f_out)

/-- Model of `R2Pipe::open` (src/r2pipe.rs:116-130; `open` is a Lean keyword):
fail with `NoSession` unless a session is available, else build a
`Lang` pipe from the (dup'd) descriptors. -/
def R2Pipe.openPipe (env : Env) : Result R2PipeVariant :=
  match R2Pipe.in_session env with
  | none => .error .NoSession
  | some fds => .ok (.Lang fds.1 fds.2)

/-- Model of `R2Pipe::spawn` (src/r2pipe.rs:185-221): an empty name with a live
session delegates to `open`; otherwise launch
`<exepath> -q0 [args...] <name>` (the launch and the sentinel-byte
read are external I/O, modelled as succeeding). -/
def R2Pipe.spawn (env : Env) (name : String) (opts : Option R2PipeSpawnOptions) :
    Result R2PipeVariant :=
  if name = "" ∧ (R2Pipe.in_session env).isSome then R2Pipe.openPipe env
  else
    let exepath := match opts with | some o => o.exepath | none => "r2"
    let args := match opts with | some o => o.args | none => []
    .ok (.Pipe exepath args name)

/-! ## Worker pool -/

/-- One `R2PipeThread` as handed back by `R2Pipe::threads`
(src/r2pipe.rs:278-283): its id and the spawn request it was created
from.  The channels and join handle are runtime objects; the loop
itself is modelled by `workerLoop` below. -/
structure R2PipeThreadModel where
  id : Nat
  name : String
  opt : Option R2PipeSpawnOptions
deriving DecidableEq, Repr

/-- Model of `R2Pipe::threads` (src/r2pipe.rs:244-286): reject mismatched
argument lists with `ArgumentMismatch` before creating anything; else
one handle per name, pushed in request order with `id = n`. -/
def R2Pipe.threads (names : List String) (opts : List (Option R2PipeSpawnOptions)) :
    Result (List R2PipeThreadModel) :=
  if names.length ≠ opts.length then .error .ArgumentMismatch
  else
    .ok ((List.range names.length).map fun n =>
      { id := n, name := names.getD n "", opt := opts.getD n none })

/-- The body of a worker thread in `R2Pipe::threads`
(src/r2pipe.rs:261-277).  The inbound mpsc channel is modelled as the
finite list of commands the handle side sends before dropping its
sender (the `[]` case is `hrx.recv()` failing on the closed channel);
`exec c` models `r2.cmdj(&c)?.to_string()`.  Returns the thread's
result and the replies published on the outbound channel, in order. -/
def workerLoop (exec : String → Result String) :
    List String → Result Unit × List String
  | [] => (.error .ChannelClosed, [])
  | c :: rest =>
    if c = "q" then (.ok (), [])
    else
      match exec c with
      | .error e => (.error e, [])
      | .ok res =>
        let r := workerLoop exec rest
        (r.1, res :: r.2)

/-- Modelled from the spec/std: `R2PipeThread::send`
(src/r2pipe.rs:290-292) enqueues on the worker's mpsc channel; the
send fails with a closed-channel error exactly when the worker thread
has terminated (its receiving end was dropped when the loop
returned). -/
def R2PipeThread.send (workerTerminated : Bool) (_cmd : String) : Result Unit :=
  if workerTerminated then .error .ChannelClosed else .ok ()

/-! ## URL escaping (spec model for the HTTP claim) -/

/-- A hexadecimal digit character (uppercase). -/
def hexDigit (n : Nat) : Char :=
  if n < 10 then Char.ofNat (48 + n) else Char.ofNat (55 + n)

/-- Modelled from the spec: standard percent-encoding of one byte. -/
def percentEncodeByte (b : Nat) : List Char :=
  ['%', hexDigit (b / 16), hexDigit (b % 16)]

/-- Is `c` an RFC 3986 unreserved character? -/
def isUnreserved (c : Char) : Bool :=
  c.isAlphanum || c = '-' || c = '.' || c = '_' || c = '~'

/-- Modelled from the spec: "url-escaped command" — percent-encode
every byte of the UTF-8 encoding except unreserved characters. -/
def urlEscape (s : String) : String :=
  ⟨s.data.flatMap fun c =>
    if isUnreserved c then [c] else (utf8EncodeChar c).flatMap percentEncodeByte⟩

/-- The URL the spec prescribes for the HTTP transport:
`http://{host}/cmd/{url-escaped command}`. -/
def specHttpUrl (host cmd : String) : String :=
  "http://" ++ host ++ "/cmd/" ++ urlEscape cmd

/-! ## UTF-8 round trip -/

theorem utf8DecodeAux_encodeChar (c : Char) (rest : List Nat) :
    utf8DecodeAux none (utf8EncodeChar c ++ rest) =
      (utf8DecodeAux none rest).map (fun cs => c :: cs) := by
  have hv : c.toNat < 55296 ∨ (57343 < c.toNat ∧ c.toNat < 1114112) := c.valid
  by_cases h1 : c.toNat < 128
  · have he : utf8EncodeChar c = [c.toNat] := by simp [utf8EncodeChar, h1]
    simp [he, utf8DecodeAux, h1]
  · by_cases h2 : c.toNat < 2048
    · have he : utf8EncodeChar c = [192 + c.toNat / 64, 128 + c.toNat % 64] := by
        simp [utf8EncodeChar, h1, h2]
      simp [he, utf8DecodeAux, contByte,
        show ¬(192 + c.toNat / 64 < 128) from by omega,
        show ¬(192 + c.toNat / 64 < 192) from by omega,
        show 192 + c.toNat / 64 < 224 from by omega,
        show 128 ≤ 128 + c.toNat % 64 from by omega,
        show 128 + c.toNat % 64 < 192 from by omega,
        show c.toNat / 64 * 64 + c.toNat % 64 = c.toNat from by omega,
        show 128 ≤ c.toNat from by omega,
        show c.toNat < 55296 from by omega,
        show c.toNat < 1114112 from by omega]
    · by_cases h3 : c.toNat < 65536
      · have he : utf8EncodeChar c =
            [224 + c.toNat / 4096, 128 + c.toNat / 64 % 64, 128 + c.toNat % 64] := by
          simp [utf8EncodeChar, h1, h2, h3]
        have hsur : c.toNat < 55296 ∨ 57343 < c.toNat := by omega
        simp [he, utf8DecodeAux, contByte,
          show ¬(224 + c.toNat / 4096 < 128) from by omega,
          show ¬(224 + c.toNat / 4096 < 192) from by omega,
          show ¬(224 + c.toNat / 4096 < 224) from by omega,
          show 224 + c.toNat / 4096 < 240 from by omega,
          show 128 ≤ 128 + c.toNat / 64 % 64 from by omega,
          show 128 + c.toNat / 64 % 64 < 192 from by omega,
          show 128 ≤ 128 + c.toNat % 64 from by omega,
          show 128 + c.toNat % 64 < 192 from by omega,
          show c.toNat / 4096 * 64 + c.toNat / 64 % 64 = c.toNat / 64 from by omega,
          show c.toNat / 64 * 64 + c.toNat % 64 = c.toNat from by omega,
          show 2048 ≤ c.toNat from by omega,
          show c.toNat < 1114112 from by omega,
          hsur]
      · have he : utf8EncodeChar c =
            [240 + c.toNat / 262144, 128 + c.toNat / 4096 % 64, 128 + c.toNat / 64 % 64,
              128 + c.toNat % 64] := by
          simp [utf8EncodeChar, h1, h2, h3]
        have h4 : c.toNat < 1114112 := by omega
        simp [he, utf8DecodeAux, contByte,
          show ¬(240 + c.toNat / 262144 < 128) from by omega,
          show ¬(240 + c.toNat / 262144 < 192) from by omega,
          show ¬(240 + c.toNat / 262144 < 224) from by omega,
          show ¬(240 + c.toNat / 262144 < 240) from by omega,
          show 240 + c.toNat / 262144 < 248 from by omega,
          show 128 ≤ 128 + c.toNat / 4096 % 64 from by omega,
          show 128 + c.toNat / 4096 % 64 < 192 from by omega,
          show 128 ≤ 128 + c.toNat / 64 % 64 from by omega,
          show 128 + c.toNat / 64 % 64 < 192 from by omega,
          show 128 ≤ 128 + c.toNat % 64 from by omega,
          show 128 + c.toNat % 64 < 192 from by omega,
          show c.toNat / 262144 * 64 + c.toNat / 4096 % 64 = c.toNat / 4096 from by omega,
          show c.toNat / 4096 * 64 + c.toNat / 64 % 64 = c.toNat / 64 from by omega,
          show c.toNat / 64 * 64 + c.toNat % 64 = c.toNat from by omega,
          show 65536 ≤ c.toNat from by omega,
          show c.toNat < 55296 ∨ 57343 < c.toNat from by omega,
          h4]

theorem utf8DecodeChars_flatMap_encode (cs : List Char) :
    utf8DecodeChars (cs.flatMap utf8EncodeChar) = some cs := by
  induction cs with
  | nil => rfl
  | cons c cs ih =>
    rw [utf8DecodeChars, List.flatMap_cons, utf8DecodeAux_encodeChar]
    rw [utf8DecodeChars] at ih
    rw [ih]
    rfl

/-- Decoding inverts encoding: the mock transport can echo any
command's bytes and they decode back to the command. -/
theorem utf8Decode_encode (s : String) : utf8Decode (utf8Encode s) = some s := by
  rw [utf8Decode, utf8Encode, utf8DecodeChars_flatMap_encode]
  rfl

/-- Every byte of the encoding of a non-NUL character is nonzero. -/
theorem utf8EncodeChar_ne_zero (c : Char) (b : Nat) (hb : b ∈ utf8EncodeChar c)
    (hc : c.toNat ≠ 0) : b ≠ 0 := by
  simp only [utf8EncodeChar] at hb
  split at hb
  · simp at hb
    omega
  · split at hb
    · simp at hb
      omega
    · split at hb
      · simp at hb
        omega
      · simp at hb
        omega

/-- The encoding of a NUL-free string contains no NUL byte. -/
theorem utf8Encode_zero_not_mem (s : String) (h : ∀ ch ∈ s.data, ch.toNat ≠ 0) :
    (0 : Nat) ∉ utf8Encode s := by
  intro hmem
  rw [utf8Encode, List.mem_flatMap] at hmem
  obtain ⟨c, hcmem, hb⟩ := hmem
  exact utf8EncodeChar_ne_zero c 0 hb (h c hcmem) rfl

/-! ## `read_until` framing -/

theorem readUntil_eq_nil_iff (d : Nat) (l : List Nat) : readUntil d l = [] ↔ l = [] := by
  cases l with
  | nil => simp [readUntil]
  | cons b rest =>
    rw [readUntil]
    split <;> simp

/-- With no NUL in the payload, `read_until` consumes the payload plus
the trailing delimiter. -/
theorem readUntil_append_delim (l : List Nat) (h : (0 : Nat) ∉ l) :
    readUntil 0 (l ++ [0]) = l ++ [0] := by
  induction l with
  | nil => rfl
  | cons b rest ih =>
    simp only [List.mem_cons, not_or] at h
    rw [List.cons_append, readUntil, if_neg (by omega), ih h.2]

/-- With no NUL anywhere, `read_until` runs to EOF and returns the
whole stream. -/
theorem readUntil_no_delim (l : List Nat) (h : (0 : Nat) ∉ l) :
    readUntil 0 l = l := by
  induction l with
  | nil => rfl
  | cons b rest ih =>
    simp only [List.mem_cons, not_or] at h
    rw [readUntil, if_neg (by omega), ih h.2]

/-! ## `process_result` behaviour -/

/-- On a non-empty buffer the final byte is dropped unconditionally
and the rest is decoded. -/
theorem process_result_append (l : List Nat) (b : Nat) :
    process_result (l ++ [b]) =
      match utf8Decode l with
      | some s => .ok s
      | none => .error .DecodeError := by
  rw [process_result, if_neg (by simp)]
  rw [List.dropLast_concat]

/-- The `EmptyResponse` error is produced exactly on the zero-length buffer. -/
theorem process_result_eq_emptyResponse_iff (l : List Nat) :
    process_result l = .error .EmptyResponse ↔ l = [] := by
  constructor
  · intro h
    by_contra hne
    rw [process_result, if_neg (by simpa using hne)] at h
    revert h
    cases utf8Decode l.dropLast <;> simp
  · intro h
    subst h
    rfl

/-! ## Claims -/

/-- C1, counterexample: for the non-empty command consisting of one NUL
character, the echoed stream is `[0, 0]`, `read_until` stops at the
first NUL, and `cmd` returns `""` rather than the command. -/
theorem spawn_cmd_echo_nul_counterexample :
    (R2PipeSpawn.cmd "\x00" (utf8Encode "\x00" ++ [0])).2 ≠ .ok "\x00" := by
  decide

/-- C1 (amended): for every non-empty command string containing no NUL
character, when the SpawnedProcess byte stream echoes the command
followed by a single NUL byte, `cmd` returns exactly the command (the
NUL delimiter is read and stripped); and any response payload that is
not valid UTF-8 fails with a decode error. -/
theorem spawn_cmd_echo_roundtrip (cmd : String) (_hne : cmd ≠ "")
    (hnul : ∀ ch ∈ cmd.data, ch.toNat ≠ 0) :
    (R2PipeSpawn.cmd cmd (utf8Encode cmd ++ [0])).2 = .ok cmd ∧
    (∀ res : List Nat, res ≠ [] → utf8Decode res.dropLast = none →
      process_result res = .error .DecodeError) := by
  constructor
  · show process_result (readUntil 0 (utf8Encode cmd ++ [0])) = .ok cmd
    rw [readUntil_append_delim _ (utf8Encode_zero_not_mem cmd hnul),
      process_result_append, utf8Decode_encode]
  · intro res hres hdec
    rw [process_result, if_neg (by simpa using hres), hdec]

/-- Witness for C1 at the command "x". -/
theorem spawn_cmd_echo_roundtrip_witness :
    (R2PipeSpawn.cmd "x" (utf8Encode "x" ++ [0])).2 = .ok "x" :=
  (spawn_cmd_echo_roundtrip "x" (by decide) (by decide)).1

/-- C2, counterexample: a TCP response stream that is the empty
sequence, and a process/inherited stream of exactly one NUL byte, both
yield success with the empty string, not EmptyResponse. -/
theorem cmd_empty_stream_counterexample :
    (R2PipeTcp.cmd "x" []).2 ≠ .error .EmptyResponse ∧
    (R2PipeLang.cmd "x" [0]).2 ≠ .error .EmptyResponse ∧
    (R2PipeTcp.cmd "x" []).2 = .ok "" ∧
    (R2PipeLang.cmd "x" [0]).2 = .ok "" := by
  decide

/-- C2 (amended): the process/inherited transports return
EmptyResponse exactly when the raw byte stream is empty; a stream of
exactly one NUL byte yields success with the empty string; the TCP
transport never returns EmptyResponse (a synthetic NUL makes the
buffer non-empty) and yields success with the empty string on the
empty stream, as does HTTP on an empty body. -/
theorem cmd_emptyResponse_characterization (c : String) :
    (∀ stream : List Nat,
      ((R2PipeSpawn.cmd c stream).2 = .error .EmptyResponse ↔ stream = []) ∧
      ((R2PipeLang.cmd c stream).2 = .error .EmptyResponse ↔ stream = [])) ∧
    (R2PipeSpawn.cmd c [0]).2 = .ok "" ∧
    (R2PipeLang.cmd c [0]).2 = .ok "" ∧
    (∀ stream : List Nat, (R2PipeTcp.cmd c stream).2 ≠ .error .EmptyResponse) ∧
    (R2PipeTcp.cmd c []).2 = .ok "" ∧
    (∀ host : String, (R2PipeHttp.cmd host c []).2 = .ok "") := by
  refine ⟨fun stream => ⟨?_, ?_⟩, rfl, rfl, fun stream => ?_, rfl, fun host => rfl⟩
  · show process_result (readUntil 0 stream) = .error .EmptyResponse ↔ stream = []
    rw [process_result_eq_emptyResponse_iff, readUntil_eq_nil_iff]
  · show process_result (readUntil 0 stream) = .error .EmptyResponse ↔ stream = []
    rw [process_result_eq_emptyResponse_iff, readUntil_eq_nil_iff]
  · show process_result (stream ++ [0]) ≠ .error .EmptyResponse
    rw [Ne, process_result_eq_emptyResponse_iff]
    simp

/-- Witness for C2 at the command "x" and stream `[0]`. -/
theorem cmd_emptyResponse_characterization_witness :
    (R2PipeLang.cmd "x" [0]).2 ≠ .error .EmptyResponse :=
  fun h => by
    have := ((cmd_emptyResponse_characterization "x").1 [0]).2.mp h
    exact absurd this (by decide)

/-- C4: the InheritedSession transport writes the command bytes
exactly as supplied (no trailing newline), while the SpawnedProcess
transport writes the command bytes followed by a single newline
byte. -/
theorem lang_writes_exact_spawn_appends_newline (cmd : String) (stream : List Nat) :
    (R2PipeLang.cmd cmd stream).1 = utf8Encode cmd ∧
    (R2PipeSpawn.cmd cmd stream).1 = utf8Encode cmd ++ [10] := by
  refine ⟨rfl, ?_⟩
  show utf8Encode (cmd ++ "\n") = utf8Encode cmd ++ [10]
  rw [utf8Encode, utf8Encode]
  rw [show (cmd ++ "\n").data = cmd.data ++ ['\n'] from String.data_append cmd "\n"]
  rw [List.flatMap_append]
  rfl

/-- C10: the shared response-processing function drops the final byte
of a non-empty buffer unconditionally, whether or not it is the NUL
delimiter; hence a process/inherited read that ends at EOF without a
terminating NUL returns the response with its last genuine byte
dropped. -/
theorem process_result_strips_last_byte (cmd : String) (res : List Nat) (b : Nat)
    (hno : (0 : Nat) ∉ res) (hb : b ≠ 0) :
    (R2PipeSpawn.cmd cmd (res ++ [b])).2 =
      (match utf8Decode res with
       | some s => Except.ok s
       | none => Except.error Error.DecodeError) ∧
    (∀ (l : List Nat) (b2 : Nat),
      process_result (l ++ [b2]) =
        (match utf8Decode l with
         | some s => Except.ok s
         | none => Except.error Error.DecodeError)) := by
  constructor
  · have hmem : (0 : Nat) ∉ res ++ [b] := by
      intro hm
      rcases List.mem_append.mp hm with h | h
      · exact hno h
      · simp at h
        exact hb h.symm
    show process_result (readUntil 0 (res ++ [b])) = _
    rw [readUntil_no_delim _ hmem, process_result_append]
  · intro l b2
    exact process_result_append l b2

/-- Witness for C10: the stream "hi!" with no NUL delimiter comes back
as "hi" — the final genuine byte is lost. -/
theorem process_result_strips_last_byte_witness :
    (R2PipeSpawn.cmd "x" ([104, 105] ++ [33])).2 = .ok "hi" := by
  have h := (process_result_strips_last_byte "x" [104, 105] 33 (by decide) (by decide)).1
  rw [h]
  rfl

/-- C3, counterexample: `R2PipeSpawn::cmdj` on the stream `[0]` (whose
decoded text is empty) fails with EmptyResponse, not ParseError, even
for a parser that rejects the empty string. -/
theorem spawn_cmdj_empty_counterexample :
    @R2PipeSpawn.cmdj Unit (fun _ => none) "x" [0] = .error .EmptyResponse ∧
    @R2PipeSpawn.cmdj Unit (fun _ => none) "x" [0] ≠ .error .ParseError := by
  decide

/-- C3 (amended): on every transport `cmdj` runs `cmd` and parses the
returned text, propagating `cmd` errors; for a parser that rejects
malformed text (and in particular the empty string), the Lang, Tcp and
Http transports fail with ParseError on unparseable text (including
empty text) and return the parsed value otherwise, while the Spawn
transport maps empty decoded text to EmptyResponse instead of
ParseError. -/
theorem cmdj_parse_behaviour {V : Type} (parse : String → Option V)
    (hparse : parse "" = none) (c host : String) (stream body : List Nat) :
    (∀ e, (R2PipeSpawn.cmd c stream).2 = .error e →
      R2PipeSpawn.cmdj parse c stream = .error e) ∧
    ((R2PipeSpawn.cmd c stream).2 = .ok "" →
      R2PipeSpawn.cmdj parse c stream = .error .EmptyResponse) ∧
    (∀ s, (R2PipeSpawn.cmd c stream).2 = .ok s → s ≠ "" → parse s = none →
      R2PipeSpawn.cmdj parse c stream = .error .ParseError) ∧
    (∀ s v, (R2PipeSpawn.cmd c stream).2 = .ok s → s ≠ "" → parse s = some v →
      R2PipeSpawn.cmdj parse c stream = .ok v) ∧
    ((R2PipeLang.cmd c stream).2 = .ok "" →
      R2PipeLang.cmdj parse c stream = .error .ParseError) ∧
    (∀ s, (R2PipeLang.cmd c stream).2 = .ok s → parse s = none →
      R2PipeLang.cmdj parse c stream = .error .ParseError) ∧
    (∀ s v, (R2PipeLang.cmd c stream).2 = .ok s → parse s = some v →
      R2PipeLang.cmdj parse c stream = .ok v) ∧
    (∀ s, (R2PipeTcp.cmd c stream).2 = .ok s → parse s = none →
      R2PipeTcp.cmdj parse c stream = .error .ParseError) ∧
    (∀ s v, (R2PipeTcp.cmd c stream).2 = .ok s → parse s = some v →
      R2PipeTcp.cmdj parse c stream = .ok v) ∧
    (∀ s, (R2PipeHttp.cmd host c body).2 = .ok s → parse s = none →
      R2PipeHttp.cmdj parse host c body = .error .ParseError) ∧
    (∀ s v, (R2PipeHttp.cmd host c body).2 = .ok s → parse s = some v →
      R2PipeHttp.cmdj parse host c body = .ok v) := by
  refine ⟨fun e he => ?_, fun h0 => ?_, fun s hs hne hp => ?_, fun s v hs hne hp => ?_,
    fun h0 => ?_, fun s hs hp => ?_, fun s v hs hp => ?_, fun s hs hp => ?_,
    fun s v hs hp => ?_, fun s hs hp => ?_, fun s v hs hp => ?_⟩
  · simp [R2PipeSpawn.cmdj, he]
  · simp [R2PipeSpawn.cmdj, h0]
  · simp [R2PipeSpawn.cmdj, hs, hne, hp]
  · simp [R2PipeSpawn.cmdj, hs, hne, hp]
  · simp [R2PipeLang.cmdj, h0, hparse]
  · simp [R2PipeLang.cmdj, hs, hp]
  · simp [R2PipeLang.cmdj, hs, hp]
  · simp [R2PipeTcp.cmdj, hs, hp]
  · simp [R2PipeTcp.cmdj, hs, hp]
  · simp [R2PipeHttp.cmdj, hs, hp]
  · simp [R2PipeHttp.cmdj, hs, hp]

/-- Witness for C3: a concrete parser and stream on the inherited
transport, exercising the parsed-value path. -/
theorem cmdj_parse_behaviour_witness :
    R2PipeLang.cmdj (fun s => if s = "ab" then some 1 else none) "x"
      (utf8Encode "ab" ++ [0]) = .ok 1 := by
  have h := cmdj_parse_behaviour (fun s => if s = "ab" then some 1 else none)
    (by decide) "x" "h" (utf8Encode "ab" ++ [0]) []
  exact h.2.2.2.2.2.2.1 "ab" 1 (by decide) (by decide)

/-- C5, counterexample: the request URL is built with the command
inserted verbatim, not URL-escaped — a command containing a space
produces a URL different from the one the spec prescribes. -/
theorem http_url_not_escaped_counterexample :
    (R2PipeHttp.cmd "h" "pd 10" []).1 ≠ specHttpUrl "h" "pd 10" ∧
    (R2PipeHttp.cmd "h" "pd 10" []).1 = "http://h/cmd/pd 10" ∧
    specHttpUrl "h" "pd 10" = "http://h/cmd/pd%2010" := by
  decide

/-- C5 (amended): the HttpEndpoint transport issues a GET to
`http://{host}/cmd/{command}` with the command inserted verbatim (no
URL escaping), and returns the entire response body decoded as UTF-8
(failing with a decode error on invalid UTF-8). -/
theorem http_cmd_url_verbatim (host cmd : String) (body : List Nat) :
    (R2PipeHttp.cmd host cmd body).1 = "http://" ++ host ++ "/cmd/" ++ cmd ∧
    (∀ s, utf8Decode body = some s → (R2PipeHttp.cmd host cmd body).2 = .ok s) ∧
    (utf8Decode body = none → (R2PipeHttp.cmd host cmd body).2 = .error .DecodeError) ∧
    (∀ s : String, (R2PipeHttp.cmd host cmd (utf8Encode s)).2 = .ok s) := by
  refine ⟨rfl, fun s hs => ?_, fun hn => ?_, fun s => ?_⟩
  · simp [R2PipeHttp.cmd, hs]
  · simp [R2PipeHttp.cmd, hn]
  · simp [R2PipeHttp.cmd, utf8Decode_encode]

/-- Witness for C5: the full body comes back undamaged. -/
theorem http_cmd_url_verbatim_witness :
    (R2PipeHttp.cmd "h" "i" (utf8Encode "ok")).2 = .ok "ok" :=
  (http_cmd_url_verbatim "h" "i" (utf8Encode "ok")).2.2.2 "ok"

/-! ## Session discovery claims -/

theorem getenv_nonneg_iff (env : Env) (k : String) :
    0 ≤ getenv env k ↔ ∃ v n, env k = some v ∧ parseI32 v = some n ∧ 0 ≤ n := by
  rw [getenv]
  cases he : env k with
  | none => simp [he]
  | some v =>
    simp only [atoi]
    cases hp : parseI32 v with
    | none => simp [he, hp]
    | some n => simp [he, hp]

/-- C6: `open()` fails with NoSession whenever either `R2PIPE_IN` or
`R2PIPE_OUT` is absent or non-numeric (and such lookups resolve to
-1); an inherited session is available exactly when both values parse
as integers that are at least 0. -/
theorem open_noSession_characterization (env : Env) :
    ((env "R2PIPE_IN" = none ∨ (∃ v, env "R2PIPE_IN" = some v ∧ parseI32 v = none) ∨
      env "R2PIPE_OUT" = none ∨ (∃ v, env "R2PIPE_OUT" = some v ∧ parseI32 v = none)) →
      R2Pipe.openPipe env = .error .NoSession) ∧
    ((R2Pipe.in_session env).isSome ↔
      ((∃ v n, env "R2PIPE_IN" = some v ∧ parseI32 v = some n ∧ 0 ≤ n) ∧
       (∃ v n, env "R2PIPE_OUT" = some v ∧ parseI32 v = some n ∧ 0 ≤ n))) ∧
    (∀ k, env k = none → getenv env k = -1) ∧
    (∀ k v, env k = some v → parseI32 v = none → getenv env k = -1) := by
  have habs : ∀ k, (env k = none ∨ ∃ v, env k = some v ∧ parseI32 v = none) →
      getenv env k = -1 := by
    intro k hk
    rcases hk with hk | ⟨v, hv, hp⟩
    · rw [getenv, hk]
    · rw [getenv, hv]
      simp only [atoi, hp]
      rfl
  have hsess : (R2Pipe.in_session env).isSome ↔
      0 ≤ getenv env "R2PIPE_IN" ∧ 0 ≤ getenv env "R2PIPE_OUT" := by
    simp only [R2Pipe.in_session]
    by_cases hc : getenv env "R2PIPE_IN" < 0 ∨ getenv env "R2PIPE_OUT" < 0
    · rw [if_pos hc]
      simp only [Option.isSome_none, Bool.false_eq_true, false_iff]
      omega
    · rw [if_neg hc]
      simp only [Option.isSome_some, true_iff]
      omega
  refine ⟨?_, ?_, fun k hk => habs k (Or.inl hk),
    fun k v hv hp => habs k (Or.inr ⟨v, hv, hp⟩)⟩
  · intro h
    have hneg : getenv env "R2PIPE_IN" = -1 ∨ getenv env "R2PIPE_OUT" = -1 := by
      rcases h with h | h | h | h
      · exact Or.inl (habs _ (Or.inl h))
      · exact Or.inl (habs _ (Or.inr h))
      · exact Or.inr (habs _ (Or.inl h))
      · exact Or.inr (habs _ (Or.inr h))
    have hnone : R2Pipe.in_session env = none := by
      simp only [R2Pipe.in_session]
      rw [if_pos (by omega)]
    rw [R2Pipe.openPipe, hnone]
  · rw [hsess, getenv_nonneg_iff, getenv_nonneg_iff]

/-- Witness for C6: with no environment variables set at all, `open`
fails with NoSession. -/
theorem open_noSession_characterization_witness :
    R2Pipe.openPipe (fun _ => none) = .error .NoSession :=
  (open_noSession_characterization (fun _ => none)).1 (Or.inl rfl)

/-- C7: `threads` with mismatched list lengths fails with
ArgumentMismatch (no handles are produced); with equal lengths it
returns one handle per requested name, in request order, with id equal
to the request index and carrying that index's name and options. -/
theorem threads_mismatch_and_ids (names : List String)
    (opts : List (Option R2PipeSpawnOptions)) :
    (names.length ≠ opts.length →
      R2Pipe.threads names opts = .error .ArgumentMismatch) ∧
    (names.length = opts.length →
      ∃ ts, R2Pipe.threads names opts = .ok ts ∧
        ts.length = names.length ∧
        ∀ i (h : i < ts.length),
          (ts.get ⟨i, h⟩).id = i ∧
          (ts.get ⟨i, h⟩).name = names.getD i "" ∧
          (ts.get ⟨i, h⟩).opt = opts.getD i none) := by
  constructor
  · intro h
    rw [R2Pipe.threads, if_pos h]
  · intro h
    refine ⟨(List.range names.length).map
      (fun n => { id := n, name := names.getD n "", opt := opts.getD n none }), ?_, by simp, ?_⟩
    · rw [R2Pipe.threads, if_neg (by omega)]
    · intro i hi
      simp only [List.length_map, List.length_range] at hi
      simp [List.get_eq_getElem, List.getElem_map, List.getElem_range, hi]

/-- Witness for C7 on concrete mismatched and matched requests. -/
theorem threads_mismatch_and_ids_witness :
    R2Pipe.threads ["a"] [] = .error .ArgumentMismatch ∧
    (∃ ts, R2Pipe.threads ["a"] [none] = .ok ts ∧
      ts.length = (["a"] : List String).length ∧
      ∀ i (h : i < ts.length),
        (ts.get ⟨i, h⟩).id = i ∧
        (ts.get ⟨i, h⟩).name = (["a"] : List String).getD i "" ∧
        (ts.get ⟨i, h⟩).opt = ([none] : List (Option R2PipeSpawnOptions)).getD i none) :=
  ⟨(threads_mismatch_and_ids ["a"] []).1 (by decide),
   (threads_mismatch_and_ids ["a"] [none]).2 rfl⟩

/-- A concrete environment with both descriptor variables set. -/
def envBoth : Env := fun k =>
  if k = "R2PIPE_IN" then some "3"
  else if k = "R2PIPE_OUT" then some "4"
  else none

/-- C8: `spawn` with an empty name while an inherited session is
available delegates to `open()` and yields an InheritedSession (Lang)
pipe instead of launching a process. -/
theorem spawn_empty_name_delegates (env : Env) (opts : Option R2PipeSpawnOptions)
    (i o : Int) (h : R2Pipe.in_session env = some (i, o)) :
    R2Pipe.spawn env "" opts = R2Pipe.openPipe env ∧
    R2Pipe.spawn env "" opts = .ok (.Lang i o) := by
  have h1 : R2Pipe.spawn env "" opts = R2Pipe.openPipe env := by
    rw [R2Pipe.spawn.eq_def, if_pos ⟨rfl, by rw [h]; rfl⟩]
  refine ⟨h1, ?_⟩
  rw [h1, R2Pipe.openPipe, h]

/-- Witness for C8 on a concrete environment carrying descriptors 3
and 4. -/
theorem spawn_empty_name_delegates_witness :
    R2Pipe.spawn envBoth "" none = .ok (.Lang 3 4) :=
  (spawn_empty_name_delegates envBoth none 3 4 (by decide)).2

/-- C9: the literal sentinel command "q" terminates the worker loop
cleanly with Ok (commands after it are never received); every other
command received before it is executed and its stringified result is
published on the outbound channel in order; and a send to a worker
whose thread has terminated fails with a closed-channel error. -/
theorem worker_loop_sentinel (exec : String → Result String) (f : String → String)
    (cmds rest : List String) (hq : "q" ∉ cmds)
    (hok : ∀ c ∈ cmds, exec c = .ok (f c)) :
    workerLoop exec (cmds ++ "q" :: rest) = (.ok (), cmds.map f) ∧
    (∀ c2, R2PipeThread.send true c2 = .error .ChannelClosed) := by
  refine ⟨?_, fun c2 => rfl⟩
  induction cmds with
  | nil => rfl
  | cons c cs ih =>
    have hc : c ≠ "q" := by
      simp only [List.mem_cons, not_or] at hq
      exact Ne.symm hq.1
    have hcs : "q" ∉ cs := by
      simp only [List.mem_cons, not_or] at hq
      exact hq.2
    have hce : exec c = .ok (f c) := hok c (List.mem_cons_self c cs)
    simp [workerLoop, hc, hce,
      ih hcs (fun x hx => hok x (List.mem_cons_of_mem _ hx))]

/-- Witness for C9 on a one-command inbound queue followed by the
sentinel. -/
theorem worker_loop_sentinel_witness :
    workerLoop (fun c => .ok (c ++ "!")) (["x"] ++ "q" :: []) = (.ok (), ["x!"]) ∧
    R2PipeThread.send true "y" = .error .ChannelClosed := by
  have h := worker_loop_sentinel (fun c => .ok (c ++ "!")) (fun c => c ++ "!")
    ["x"] [] (by decide) (fun c hc => rfl)
  exact ⟨h.1.trans (by rfl), h.2 "y"⟩

end R2pipe
